import Mathlib

/-!
Shallow embedding of the state-synchronization core of the `interface.js`
repository (`src/flask_server/server.py` and `src/interface_server.py`).

JSON values are modelled by `Json` (numbers as rationals, since no claim
depends on int/float distinctions), Python dicts by association lists kept in
insertion order with unique keys, and each Socket.IO handler by a pure
function from the server state and the inbound payload to the new server
state, the ordered list of outbound emissions, and an optional Python
exception (`none` when the handler returns normally).
-/

/-- A JSON value as handled by the Python server. -/
inductive Json : Type where
  | null : Json
  | bool : Bool → Json
  | num : Rat → Json
  | str : String → Json
  | arr : List Json → Json
  | obj : List (String × Json) → Json
deriving Repr

mutual

/-- Structural boolean equality on `Json` (scaffolding for decidable
equality of the embedded values; distinct from Python `==`, which is
modelled separately by `pyEq`). -/
def Json.beq : Json → Json → Bool
  | .null, .null => true
  | .bool a, .bool b => a == b
  | .num a, .num b => a == b
  | .str a, .str b => a == b
  | .arr a, .arr b => Json.beqList a b
  | .obj a, .obj b => Json.beqFields a b
  | _, _ => false
termination_by structural x _ => x

/-- Structural equality on lists of `Json`. -/
def Json.beqList : List Json → List Json → Bool
  | [], [] => true
  | x :: xs, y :: ys => Json.beq x y && Json.beqList xs ys
  | _, _ => false
termination_by structural x _ => x

/-- Structural equality on field lists. -/
def Json.beqFields : List (String × Json) → List (String × Json) → Bool
  | [], [] => true
  | (k, v) :: xs, (k2, v2) :: ys => k == k2 && Json.beq v v2 && Json.beqFields xs ys
  | _, _ => false
termination_by structural x _ => x

end

mutual

/-- `Json.beq` decides propositional equality. -/
def Json.beq_iff : ∀ (a b : Json), Json.beq a b = true ↔ a = b
  | .null, b => by cases b <;> simp [Json.beq]
  | .bool x, b => by cases b <;> simp [Json.beq]
  | .num x, b => by cases b <;> simp [Json.beq]
  | .str x, b => by cases b <;> simp [Json.beq]
  | .arr xs, b => by
      cases b <;> simp [Json.beq]
      exact Json.beqList_iff xs _
  | .obj es, b => by
      cases b <;> simp [Json.beq]
      exact Json.beqFields_iff es _

/-- `Json.beqList` decides propositional equality. -/
def Json.beqList_iff : ∀ (a b : List Json), Json.beqList a b = true ↔ a = b
  | [], b => by cases b <;> simp [Json.beqList]
  | x :: xs, [] => by simp [Json.beqList]
  | x :: xs, y :: ys => by
      simp [Json.beqList, Json.beq_iff x y, Json.beqList_iff xs ys]

/-- `Json.beqFields` decides propositional equality. -/
def Json.beqFields_iff : ∀ (a b : List (String × Json)), Json.beqFields a b = true ↔ a = b
  | [], b => by cases b <;> simp [Json.beqFields]
  | x :: xs, [] => by simp [Json.beqFields]
  | (k, v) :: xs, (k2, v2) :: ys => by
      simp [Json.beqFields, Json.beq_iff v v2, Json.beqFields_iff xs ys]

end

instance : DecidableEq Json :=
  fun a b => decidable_of_iff (Json.beq a b = true) (Json.beq_iff a b)

/-- Python `d[k]` lookup resolving to the first matching key
(Python dicts have unique keys; insertion order is preserved). -/
def dget {α : Type} : List (String × α) → String → Option α
  | [], _ => none
  | (k2, v) :: rest, k => if k2 = k then some v else dget rest k

/-- Python `d[k] = v`: replace the value of an existing key in place,
otherwise append the new key at the end. -/
def dset {α : Type} : List (String × α) → String → α → List (String × α)
  | [], k, v => [(k, v)]
  | (k2, v2) :: rest, k, v =>
      if k2 = k then (k, v) :: rest else (k2, v2) :: dset rest k v

/-- Python `d.update(u)`: assign every key/value pair of `u` into `d`
in iteration order. -/
def dupdate (d u : List (String × Json)) : List (String × Json) :=
  u.foldl (fun acc kv => dset acc kv.1 kv.2) d

/-- Python `d.get(k)`: `None` when the key is absent. -/
def pyGet (d : List (String × Json)) (k : String) : Json :=
  (dget d k).getD Json.null

/-- Python truthiness of a JSON value. -/
def Json.truthy : Json → Bool
  | .null => false
  | .bool b => b
  | .num q => decide (q ≠ 0)
  | .str s => decide (s ≠ "")
  | .arr xs => !xs.isEmpty
  | .obj es => !es.isEmpty

/-- `isinstance(v, dict)`. -/
def Json.isObj : Json → Bool
  | .obj _ => true
  | _ => false

/-- `isinstance(v, list)`. -/
def Json.isArr : Json → Bool
  | .arr _ => true
  | _ => false

/-- `v is None` (a fetched JSON `null` and a missing key both read as `None`). -/
def Json.isNull : Json → Bool
  | .null => true
  | _ => false

/-- The field list of an object value (`[]` on non-objects; only ever used
under an `isObj` guard). -/
def Json.entries : Json → List (String × Json)
  | .obj es => es
  | _ => []

mutual

/-- Python `==` on JSON values: `True == 1`, `1 == 1.0`, dict comparison is
key-set based (order-insensitive), list comparison is pointwise. -/
def pyEq : Json → Json → Bool
  | .null, .null => true
  | .bool a, .bool b => a == b
  | .bool a, .num q => (if a then (1 : Rat) else 0) == q
  | .num q, .bool b => q == (if b then (1 : Rat) else 0)
  | .num a, .num b => a == b
  | .str a, .str b => a == b
  | .arr a, .arr b => pyEqList a b
  | .obj a, .obj b => a.length == b.length && pyEqFields a b
  | _, _ => false
termination_by structural x _ => x

/-- Pointwise Python `==` on lists. -/
def pyEqList : List Json → List Json → Bool
  | [], [] => true
  | x :: xs, y :: ys => pyEq x y && pyEqList xs ys
  | _, _ => false
termination_by structural x _ => x

/-- Every key of the first dict maps to a Python-equal value in the second. -/
def pyEqFields : List (String × Json) → List (String × Json) → Bool
  | [], _ => true
  | (k, v) :: rest, b =>
      (match dget b k with
       | some w => pyEq v w
       | none => false) && pyEqFields rest b
termination_by structural x _ => x

end

/-- Python whitespace stripped by `str.strip()` (ASCII subset). -/
def pyWhite (c : Char) : Bool :=
  c == ' ' || c == '\t' || c == '\n' || c == '\r' || c == '\x0B' || c == '\x0C'

/-- Python `s.strip()`. -/
def pyStrip (s : String) : String :=
  String.mk (((s.toList.dropWhile pyWhite).reverse.dropWhile pyWhite).reverse)

/-- The Python exceptions the embedded handlers can raise. -/
inductive PyError : Type where
  | attributeError : PyError
  | typeError : PyError
  | keyError : PyError
deriving DecidableEq, Repr

/-- One entry of `player_registry`: `{"playerName": ..., "connectedAt": ...}`. -/
structure Session where
  playerName : String
  connectedAt : String
deriving DecidableEq, Repr

/-- The mutable server state: `LATEST_STATE`, `player_registry`, `JSON_MESSAGES`. -/
structure ServerState where
  latest : List (String × Json)
  registry : List (String × Session)
  messages : List Json
deriving DecidableEq, Repr

/-- One outbound Socket.IO emission: event name, payload, recipient sessions. -/
structure Emit where
  event : String
  payload : Json
  recipients : List String
deriving DecidableEq, Repr

/-- `JSON_MESSAGES.append(message)` where `JSON_MESSAGES = deque(maxlen=100)`:
at capacity the oldest (leftmost) entry is evicted before inserting at the
right end. -/
def logAppend (msgs : List Json) (entry : Json) : List Json :=
  if msgs.length < 100 then msgs ++ [entry] else msgs.drop 1 ++ [entry]

/-- `log_json_message(message)`: append to the deque and broadcast the entry
as a `json_message` event to every connected session (no exclusion). -/
def log_json_message (sessions : List String) (msgs : List Json) (entry : Json) :
    List Json × Emit :=
  (logAppend msgs entry, ⟨"json_message", entry, sessions⟩)

/-- One iteration of the merge loop in `wizard_push_state`:

    if k == "modules" and isinstance(v, list): LATEST_STATE["modules"] = v
    elif k == "surface" and isinstance(v, dict): LATEST_STATE["surface"].update(v)
    else: LATEST_STATE[k] = v

`LATEST_STATE["surface"]` raises `KeyError` when the key is absent, and
`.update` raises `AttributeError` when the stored value is not a dict. -/
def mergeStep (doc : List (String × Json)) (k : String) (v : Json) :
    Except PyError (List (String × Json)) :=
  if k = "modules" ∧ v.isArr = true then
    Except.ok (dset doc k v)
  else if k = "surface" ∧ v.isObj = true then
    match dget doc "surface" with
    | some (Json.obj s) => Except.ok (dset doc "surface" (Json.obj (dupdate s v.entries)))
    | some _ => Except.error PyError.attributeError
    | none => Except.error PyError.keyError
  else
    Except.ok (dset doc k v)

/-- The whole merge loop `for k, v in state.items(): ...` of
`wizard_push_state`. A raised exception stops the loop; mutations made by
earlier iterations persist. -/
def mergeLoop : List (String × Json) → List (String × Json) →
    List (String × Json) × Option PyError
  | [], doc => (doc, none)
  | (k, v) :: rest, doc =>
    match mergeStep doc k v with
    | Except.ok doc2 => mergeLoop rest doc2
    | Except.error e => (doc, some e)

/-- Handler for `wizard:push_state`.

`state = (data or {}).get("state")` raises `AttributeError` when `data` is
truthy but not a dict; a non-dict `state` is ignored silently. Otherwise the
message is logged (which broadcasts `json_message` to everyone), the partial
state is merged into `LATEST_STATE`, and the merged document is emitted as
`state` to every session except the sender. -/
def wizard_push_state (sessions : List String) (sender : String) (st : ServerState)
    (data : Json) (now : String) : ServerState × List Emit × Option PyError :=
  let d := if data.truthy then data else Json.obj []
  match d with
  | Json.obj es =>
    match pyGet es "state" with
    | Json.obj stateEntries =>
      let entry := Json.obj [("type", Json.str "wizard:push_state"),
        ("state", Json.obj stateEntries), ("timestamp", Json.str now)]
      let logged := log_json_message sessions st.messages entry
      match mergeLoop stateEntries st.latest with
      | (latest2, none) =>
          ({ st with latest := latest2, messages := logged.1 },
           [logged.2, ⟨"state", Json.obj latest2, sessions.filter (fun x => x ≠ sender)⟩],
           none)
      | (latest2, some e) =>
          ({ st with latest := latest2, messages := logged.1 }, [logged.2], some e)
    | _ => (st, [], none)
  | _ => (st, [], some PyError.attributeError)

/-- `(data.get("name") or "Player").strip() or "Player"` — raises
`AttributeError` when the fetched name is truthy but not a string. -/
def resolveName (j : Json) : Except PyError String :=
  let j2 := if j.truthy then j else Json.str "Player"
  match j2 with
  | Json.str s =>
      let t := pyStrip s
      Except.ok (if t = "" then "Player" else t)
  | _ => Except.error PyError.attributeError

/-- Handler for `player:update_name`: non-dict payloads are ignored; the
resolved name updates the existing registry entry in place (keeping its
`connectedAt`) or creates a fresh entry with the current timestamp, then the
message is logged (broadcasting `json_message` to everyone). -/
def player_update_name (sessions : List String) (sender : String) (st : ServerState)
    (data : Json) (now : String) : ServerState × List Emit × Option PyError :=
  match data with
  | Json.obj es =>
    match resolveName (pyGet es "name") with
    | Except.error e => (st, [], some e)
    | Except.ok new_name =>
      let registry2 :=
        match dget st.registry sender with
        | some sess => dset st.registry sender { sess with playerName := new_name }
        | none => dset st.registry sender ⟨new_name, now⟩
      let entry := Json.obj [("type", Json.str "player:update_name"),
        ("player", Json.str new_name), ("timestamp", Json.str now)]
      let logged := log_json_message sessions st.messages entry
      ({ st with registry := registry2, messages := logged.1 }, [logged.2], none)
  | _ => (st, [], none)

/-- The module-update loop of `user_module_event`:

    for m in LATEST_STATE.get("modules", []):
        if m.get("id") == mid and "value" in m and value is not None:
            m["value"] = value
            break

Returns the updated list, whether an update occurred, and the exception
raised when an element reached by the scan is not a dict (`m.get` fails). -/
def updateModules (mid value : Json) : List Json → List Json × Bool × Option PyError
  | [] => ([], false, none)
  | m :: rest =>
    match m with
    | Json.obj fields =>
      if pyEq (pyGet fields "id") mid && (dget fields "value").isSome && !value.isNull then
        (Json.obj (dset fields "value" value) :: rest, true, none)
      else
        let r := updateModules mid value rest
        (Json.obj fields :: r.1, r.2.1, r.2.2)
    | _ => (m :: rest, false, some PyError.attributeError)

/-- `LATEST_STATE.get("modules", [])` followed by the module-update loop.
A missing key iterates over the default `[]`; iterating a number, bool or
null raises `TypeError`; iterating a non-empty string or dict reaches a
non-dict element and raises `AttributeError` at `m.get`. -/
def runModuleLoop (latest : List (String × Json)) (mid value : Json) :
    List (String × Json) × Option PyError :=
  match dget latest "modules" with
  | none => (latest, none)
  | some (Json.arr ms) =>
      match updateModules mid value ms with
      | (ms2, _, none) => (dset latest "modules" (Json.arr ms2), none)
      | (_, _, some e) => (latest, some e)
  | some (Json.str s) => (latest, if s = "" then none else some PyError.attributeError)
  | some (Json.obj es) => (latest, if es.isEmpty then none else some PyError.attributeError)
  | some _ => (latest, some PyError.typeError)

/-- Handler for `user:module_event`: non-dict payloads are ignored (a console
warning only); otherwise the message is logged, the first matching module
value is updated, and the event is rebroadcast to everyone but the sender,
with the `payload` key included only when non-null. -/
def user_module_event (sessions : List String) (sender : String) (st : ServerState)
    (data : Json) (now : String) : ServerState × List Emit × Option PyError :=
  match data with
  | Json.obj es =>
    let player_name :=
      match dget st.registry sender with
      | some sess => sess.playerName
      | none => "Player"
    let mid := pyGet es "id"
    let value := pyGet es "value"
    let etype := pyGet es "etype"
    let payload := pyGet es "payload"
    let entry := Json.obj [("type", Json.str "user:module_event"),
      ("player", Json.str player_name), ("id", mid), ("etype", etype),
      ("value", value), ("payload", payload), ("timestamp", Json.str now)]
    let logged := log_json_message sessions st.messages entry
    match runModuleLoop st.latest mid value with
    | (latest2, none) =>
        let event_data := Json.obj ([("id", mid), ("etype", etype), ("value", value)] ++
          (if payload.isNull then [] else [("payload", payload)]))
        ({ st with latest := latest2, messages := logged.1 },
         [logged.2, ⟨"user:module_event", event_data, sessions.filter (fun x => x ≠ sender)⟩],
         none)
    | (latest2, some e) =>
        ({ st with latest := latest2, messages := logged.1 }, [logged.2], some e)
  | _ => (st, [], none)

/-- Handler for `connect`: registers the session under its id with the
default name (silently overwriting any existing entry for that id) and sends
the current `LATEST_STATE` snapshot to the connecting session only. -/
def on_connect (st : ServerState) (sender : String) (now : String) :
    ServerState × List Emit :=
  ({ st with registry := dset st.registry sender ⟨"Player", now⟩ },
   [⟨"state", Json.obj st.latest, [sender]⟩])

/-- The initial canonical document `LATEST_STATE` from the source. -/
def LATEST_STATE : List (String × Json) :=
  [("v", Json.num 1),
   ("surface", Json.obj
     [("cols", Json.num 4), ("rows", Json.num 6),
      ("theme", Json.obj
        [("bg", Json.str "#0a0a0d"), ("fg", Json.str "#e8e8ee"),
         ("muted", Json.str "#8d8d98"), ("accent", Json.str "#b7c7ff"),
         ("glow", Json.num (mkRat 9 10)), ("grain", Json.num (mkRat 12 100))]),
      ("tempo", Json.num (mkRat 35 100))]),
   ("modules", Json.arr
     [Json.obj [("id", Json.str "A1"), ("type", Json.str "trig"), ("label", Json.str "∎"),
        ("mode", Json.str "momentary"), ("value", Json.num 0), ("locked", Json.bool false)],
      Json.obj [("id", Json.str "A2"), ("type", Json.str "fader"), ("label", Json.str "I"),
        ("min", Json.num 0), ("max", Json.num 1), ("step", Json.num (mkRat 1 100)),
        ("value", Json.num (mkRat 62 100)), ("locked", Json.bool false)],
      Json.obj [("id", Json.str "A3"), ("type", Json.str "dial"), ("label", Json.str "↺"),
        ("min", Json.num 0), ("max", Json.num 1), ("step", Json.num (mkRat 2 100)),
        ("value", Json.num (mkRat 18 100)), ("locked", Json.bool false)],
      Json.obj [("id", Json.str "A4"), ("type", Json.str "meter"), ("label", Json.str "⋯"),
        ("value", Json.num (mkRat 4 10))],
      Json.obj [("id", Json.str "B1"), ("type", Json.str "trig"), ("label", Json.str "—"),
        ("mode", Json.str "toggle"), ("value", Json.num 1), ("locked", Json.bool false)],
      Json.obj [("id", Json.str "B2"), ("type", Json.str "meter"), ("label", Json.str "⌁"),
        ("value", Json.num (mkRat 2 10))],
      Json.obj [("id", Json.str "B3"), ("type", Json.str "fader"), ("label", Json.str "II"),
        ("min", Json.num 0), ("max", Json.num 1), ("step", Json.num (mkRat 1 100)),
        ("value", Json.num (mkRat 28 100)), ("locked", Json.bool false)],
      Json.obj [("id", Json.str "B4"), ("type", Json.str "dial"), ("label", Json.str "⅓"),
        ("min", Json.num 0), ("max", Json.num 1), ("step", Json.num (mkRat 2 100)),
        ("value", Json.num (mkRat 76 100)), ("locked", Json.bool false)]])]

/-- Iterated `logAppend` (used to state the ring-buffer property). -/
def logAppendAll (msgs : List Json) (es : List Json) : List Json :=
  es.foldl logAppend msgs

/-- The loop condition of the module-update scan, as a predicate on one
module: the id matches (Python `==`) and a `value` field already exists. -/
def moduleHit (mid : Json) (m : Json) : Bool :=
  match m with
  | Json.obj fields => pyEq (pyGet fields "id") mid && (dget fields "value").isSome
  | _ => false

theorem dget_dset {α : Type} (d : List (String × α)) (k k2 : String) (v : α) :
    dget (dset d k v) k2 = if k = k2 then some v else dget d k2 := by
  induction d with
  | nil => by_cases h : k = k2 <;> simp [dget, dset, h]
  | cons hd tl ih =>
    obtain ⟨k0, v0⟩ := hd
    by_cases h1 : k0 = k
    · subst h1
      by_cases h2 : k0 = k2 <;> simp [dget, dset, h2]
    · by_cases h2 : k0 = k2
      · have h3 : ¬ k = k2 := fun h => h1 (h2.trans h.symm)
        have h4 : ¬ k2 = k := fun h => h3 h.symm
        simp [dget, dset, h1, h2, h3, h4]
      · simp [dget, dset, h1, h2, ih]

theorem dget_eq_none {α : Type} (d : List (String × α)) (k : String) :
    dget d k = none ↔ k ∉ d.map Prod.fst := by
  induction d with
  | nil => simp [dget]
  | cons hd tl ih =>
    obtain ⟨k0, v0⟩ := hd
    by_cases h : k0 = k
    · subst h
      simp [dget]
    · have h2 : ¬ k = k0 := fun hk => h hk.symm
      simp [dget, h, ih, h2]

theorem dget_mem_keys {α : Type} {d : List (String × α)} {k : String} {v : α}
    (h : dget d k = some v) : k ∈ d.map Prod.fst := by
  by_contra hc
  rw [← dget_eq_none d k] at hc
  simp [h] at hc

theorem dset_self {α : Type} {d : List (String × α)} {k : String} {v : α}
    (h : dget d k = some v) : dset d k v = d := by
  induction d with
  | nil => simp [dget] at h
  | cons hd tl ih =>
    obtain ⟨k0, v0⟩ := hd
    by_cases h1 : k0 = k
    · subst h1
      simp [dget] at h
      simp [dset, h]
    · simp [dget, h1] at h
      simp [dset, h1, ih h]

theorem dset_dset {α : Type} (d : List (String × α)) (k : String) (v w : α) :
    dset (dset d k v) k w = dset d k w := by
  induction d with
  | nil => simp [dset]
  | cons hd tl ih =>
    obtain ⟨k0, v0⟩ := hd
    by_cases h1 : k0 = k <;> simp [dset, h1, ih]

theorem keys_dset {α : Type} {d : List (String × α)} {k : String} (v : α)
    (h : dget d k ≠ none) : (dset d k v).map Prod.fst = d.map Prod.fst := by
  induction d with
  | nil => simp [dget] at h
  | cons hd tl ih =>
    obtain ⟨k0, v0⟩ := hd
    by_cases h1 : k0 = k
    · subst h1; simp [dset]
    · simp [dget, h1] at h
      simp [dset, h1, ih h]

theorem dget_dupdate (d u : List (String × Json)) (hu : (u.map Prod.fst).Nodup)
    (k : String) :
    dget (dupdate d u) k =
      match dget u k with
      | some v => some v
      | none => dget d k := by
  induction u generalizing d with
  | nil => simp [dupdate, dget]
  | cons hd tl ih =>
    obtain ⟨k0, v0⟩ := hd
    simp only [List.map_cons, List.nodup_cons] at hu
    have h2 := ih (dset d k0 v0) hu.2
    simp only [dupdate, List.foldl_cons] at h2 ⊢
    rw [h2]
    by_cases hk : k0 = k
    · subst hk
      have hnone : dget tl k0 = none := by
        rw [dget_eq_none]; exact hu.1
      simp [dget, hnone, dget_dset]
    · cases htl : dget tl k <;> simp [dget, hk, htl, dget_dset]

theorem mergeStep_ok_shape {doc doc2 : List (String × Json)} {k : String} {v : Json}
    (h : mergeStep doc k v = Except.ok doc2) : ∃ w, doc2 = dset doc k w := by
  unfold mergeStep at h
  by_cases h1 : k = "modules" ∧ v.isArr = true
  · rw [if_pos h1] at h
    injection h with h2
    exact ⟨v, h2.symm⟩
  · rw [if_neg h1] at h
    by_cases h2 : k = "surface" ∧ v.isObj = true
    · rw [if_pos h2] at h
      cases hs : dget doc "surface" with
      | none => rw [hs] at h; simp at h
      | some sv =>
        cases sv with
        | obj s =>
          rw [hs] at h
          simp only [Except.ok.injEq] at h
          exact ⟨Json.obj (dupdate s v.entries), by rw [h2.1]; exact h.symm⟩
        | null => rw [hs] at h; simp at h
        | bool b => rw [hs] at h; simp at h
        | num q => rw [hs] at h; simp at h
        | str s => rw [hs] at h; simp at h
        | arr a => rw [hs] at h; simp at h
    · rw [if_neg h2] at h
      injection h with h3
      exact ⟨v, h3.symm⟩

theorem mergeStep_error {doc : List (String × Json)} {k : String} {v : Json} {e : PyError}
    (h : mergeStep doc k v = Except.error e) :
    k = "surface" ∧ v.isObj = true ∧ ∀ s, dget doc "surface" ≠ some (Json.obj s) := by
  unfold mergeStep at h
  by_cases h1 : k = "modules" ∧ v.isArr = true
  · rw [if_pos h1] at h
    simp at h
  · rw [if_neg h1] at h
    by_cases h2 : k = "surface" ∧ v.isObj = true
    · rw [if_pos h2] at h
      refine ⟨h2.1, h2.2, ?_⟩
      intro s hs
      rw [hs] at h
      simp at h
    · rw [if_neg h2] at h
      simp at h

theorem mergeStep_modules (doc : List (String × Json)) (ms : List Json) :
    mergeStep doc "modules" (Json.arr ms) =
      Except.ok (dset doc "modules" (Json.arr ms)) := by
  unfold mergeStep
  rw [if_pos ⟨rfl, rfl⟩]

theorem mergeStep_surface_obj {doc : List (String × Json)} {s : List (String × Json)}
    (us : List (String × Json)) (h : dget doc "surface" = some (Json.obj s)) :
    mergeStep doc "surface" (Json.obj us) =
      Except.ok (dset doc "surface" (Json.obj (dupdate s us))) := by
  unfold mergeStep
  rw [if_neg (by simp [Json.isArr]), if_pos ⟨rfl, rfl⟩, h]
  simp [Json.entries]

theorem mergeLoop_ok (u : List (String × Json)) :
    ∀ doc, (u.map Prod.fst).Nodup →
    (∀ us, dget u "surface" = some (Json.obj us) →
        ∃ s, dget doc "surface" = some (Json.obj s)) →
    (mergeLoop u doc).2 = none := by
  induction u with
  | nil => intro doc _ _; simp [mergeLoop]
  | cons hd rest ih =>
    intro doc hnd hsurf
    obtain ⟨k, v⟩ := hd
    simp only [List.map_cons, List.nodup_cons] at hnd
    cases hstep : mergeStep doc k v with
    | error e =>
      obtain ⟨hk, hv, hno⟩ := mergeStep_error hstep
      subst hk
      obtain ⟨us, hus⟩ : ∃ us, v = Json.obj us := by
        cases v
        case obj es => exact ⟨es, rfl⟩
        all_goals simp [Json.isObj] at hv
      subst hus
      have hget : dget (("surface", Json.obj us) :: rest) "surface" =
          some (Json.obj us) := by
        simp [dget]
      obtain ⟨s, hs⟩ := hsurf us hget
      exact absurd hs (hno s)
    | ok doc2 =>
      simp only [mergeLoop, hstep]
      apply ih doc2 hnd.2
      intro us hus
      by_cases hk : k = "surface"
      · subst hk
        exact absurd (dget_mem_keys hus) hnd.1
      · obtain ⟨w, hw⟩ := mergeStep_ok_shape hstep
        subst hw
        rw [dget_dset, if_neg hk]
        apply hsurf us
        simp [dget, hk, hus]

theorem mergeLoop_not_supplied (u : List (String × Json)) :
    ∀ doc k, k ∉ u.map Prod.fst → dget (mergeLoop u doc).1 k = dget doc k := by
  induction u with
  | nil => intro doc k _; simp [mergeLoop]
  | cons hd rest ih =>
    intro doc k hk
    obtain ⟨k0, v⟩ := hd
    simp only [List.map_cons, List.mem_cons] at hk
    push_neg at hk
    cases hstep : mergeStep doc k0 v with
    | error e => simp [mergeLoop, hstep]
    | ok doc2 =>
      simp only [mergeLoop, hstep]
      rw [ih doc2 k hk.2]
      obtain ⟨w, hw⟩ := mergeStep_ok_shape hstep
      subst hw
      rw [dget_dset, if_neg (fun h => hk.1 h.symm)]

theorem mergeLoop_modules (u : List (String × Json)) :
    ∀ doc ms, (u.map Prod.fst).Nodup →
    dget u "modules" = some (Json.arr ms) →
    (mergeLoop u doc).2 = none →
    dget (mergeLoop u doc).1 "modules" = some (Json.arr ms) := by
  induction u with
  | nil => intro doc ms _ hmod _; simp [dget] at hmod
  | cons hd rest ih =>
    intro doc ms hnd hmod herr
    obtain ⟨k, v⟩ := hd
    simp only [List.map_cons, List.nodup_cons] at hnd
    cases hstep : mergeStep doc k v with
    | error e => simp [mergeLoop, hstep] at herr
    | ok doc2 =>
      simp only [mergeLoop, hstep] at herr ⊢
      by_cases hk : k = "modules"
      · subst hk
        have hv : v = Json.arr ms := by
          simpa [dget] using hmod
        subst hv
        rw [mergeStep_modules] at hstep
        injection hstep with h2
        subst h2
        rw [mergeLoop_not_supplied rest _ _ (fun hm => hnd.1 hm)]
        rw [dget_dset, if_pos rfl]
      · apply ih doc2 ms hnd.2 ?_ herr
        simpa [dget, hk] using hmod

theorem mergeLoop_surface (u : List (String × Json)) :
    ∀ doc s us, (u.map Prod.fst).Nodup →
    dget doc "surface" = some (Json.obj s) →
    dget u "surface" = some (Json.obj us) →
    (mergeLoop u doc).2 = none →
    dget (mergeLoop u doc).1 "surface" = some (Json.obj (dupdate s us)) := by
  induction u with
  | nil => intro doc s us _ _ hsup _; simp [dget] at hsup
  | cons hd rest ih =>
    intro doc s us hnd hdoc hsup herr
    obtain ⟨k, v⟩ := hd
    simp only [List.map_cons, List.nodup_cons] at hnd
    cases hstep : mergeStep doc k v with
    | error e => simp [mergeLoop, hstep] at herr
    | ok doc2 =>
      simp only [mergeLoop, hstep] at herr ⊢
      by_cases hk : k = "surface"
      · subst hk
        have hv : v = Json.obj us := by
          simpa [dget] using hsup
        subst hv
        rw [mergeStep_surface_obj us hdoc] at hstep
        injection hstep with h2
        subst h2
        rw [mergeLoop_not_supplied rest _ _ (fun hm => hnd.1 hm)]
        rw [dget_dset, if_pos rfl]
      · obtain ⟨w, hw⟩ := mergeStep_ok_shape hstep
        have hdoc2 : dget doc2 "surface" = some (Json.obj s) := by
          rw [hw, dget_dset, if_neg hk, hdoc]
        apply ih doc2 s us hnd.2 hdoc2 ?_ herr
        simpa [dget, hk] using hsup

theorem logAppendAll_below (es : List Json) :
    ∀ msgs, msgs.length + es.length ≤ 100 → logAppendAll msgs es = msgs ++ es := by
  induction es with
  | nil => intro msgs _; simp [logAppendAll]
  | cons e rest ih =>
    intro msgs h
    simp only [List.length_cons] at h
    have h1 : msgs.length < 100 := by omega
    simp only [logAppendAll, List.foldl_cons]
    rw [show logAppend msgs e = msgs ++ [e] from by simp [logAppend, h1]]
    have h2 := ih (msgs ++ [e]) (by simp; omega)
    simp only [logAppendAll] at h2
    rw [h2, List.append_assoc]
    simp

theorem logAppendAll_overflow_one (es : List Json) :
    ∀ msgs, msgs.length ≤ 100 → msgs.length + es.length = 101 →
    logAppendAll msgs es = (msgs ++ es).drop 1 := by
  induction es with
  | nil =>
    intro msgs h1 h2
    exfalso
    simp at h2
    omega
  | cons e rest ih =>
    intro msgs h1 h2
    simp only [List.length_cons] at h2
    by_cases hlt : msgs.length < 100
    · simp only [logAppendAll, List.foldl_cons]
      rw [show logAppend msgs e = msgs ++ [e] from by simp [logAppend, hlt]]
      have h3 := ih (msgs ++ [e]) (by simp; omega) (by simp; omega)
      simp only [logAppendAll] at h3
      rw [h3]
      congr 1
      simp
    · have h100 : msgs.length = 100 := by omega
      have hrest : rest = [] := by
        have : rest.length = 0 := by omega
        exact List.length_eq_zero.mp this
      subst hrest
      simp only [logAppendAll, List.foldl_cons, List.foldl_nil]
      rw [show logAppend msgs e = msgs.drop 1 ++ [e] from by simp [logAppend, hlt]]
      rw [List.drop_append_of_le_length (by omega)]

theorem updateModules_ok (mid value : Json) (ms : List Json)
    (h : ∀ m ∈ ms, m.isObj = true) : (updateModules mid value ms).2.2 = none := by
  induction ms with
  | nil => simp [updateModules]
  | cons m rest ih =>
    have hm : m.isObj = true := h m (by simp)
    obtain ⟨f, hf⟩ : ∃ f, m = Json.obj f := by
      cases m
      case obj es => exact ⟨es, rfl⟩
      all_goals simp [Json.isObj] at hm
    subst hf
    by_cases hc : (pyEq (pyGet f "id") mid && (dget f "value").isSome && !value.isNull) = true
    · simp [updateModules, hc]
    · rw [Bool.not_eq_true] at hc
      have ih2 := ih (fun m hm2 => h m (by simp [hm2]))
      simp [updateModules, hc, ih2]

theorem updateModules_miss (mid value : Json) (ms : List Json)
    (hobj : ∀ m ∈ ms, m.isObj = true)
    (h : value.isNull = true ∨ ∀ m ∈ ms, moduleHit mid m = false) :
    updateModules mid value ms = (ms, false, none) := by
  induction ms with
  | nil => simp [updateModules]
  | cons m rest ih =>
    have hm : m.isObj = true := hobj m (by simp)
    obtain ⟨f, hf⟩ : ∃ f, m = Json.obj f := by
      cases m
      case obj es => exact ⟨es, rfl⟩
      all_goals simp [Json.isObj] at hm
    subst hf
    have hcond : (pyEq (pyGet f "id") mid && (dget f "value").isSome && !value.isNull) = false := by
      rcases h with hnull | hmiss
      · simp [hnull]
      · have := hmiss (Json.obj f) (by simp)
        simp only [moduleHit] at this
        simp [this]
    have hrest := ih (fun m hm2 => hobj m (by simp [hm2]))
      (by
        rcases h with hnull | hmiss
        · exact Or.inl hnull
        · exact Or.inr (fun m hm2 => hmiss m (by simp [hm2])))
    simp [updateModules, hcond, hrest]

theorem updateModules_hit (mid value : Json) (post : List Json) :
    ∀ (pre : List Json) (f : List (String × Json)),
    value.isNull = false →
    (∀ m ∈ pre, moduleHit mid m = false) →
    (∀ m ∈ pre, m.isObj = true) →
    moduleHit mid (Json.obj f) = true →
    updateModules mid value (pre ++ Json.obj f :: post) =
      (pre ++ Json.obj (dset f "value" value) :: post, true, none) := by
  intro pre
  induction pre with
  | nil =>
    intro f hv _ _ hhit
    simp only [moduleHit, Bool.and_eq_true] at hhit
    have hcond : (pyEq (pyGet f "id") mid && (dget f "value").isSome && !value.isNull) = true := by
      simp [hhit.1, hhit.2, hv]
    simp [updateModules, hcond]
  | cons p pre2 ih =>
    intro f hv hpre hpreobj hhit
    have hp : p.isObj = true := hpreobj p (by simp)
    obtain ⟨pf, hpf⟩ : ∃ pf, p = Json.obj pf := by
      cases p
      case obj es => exact ⟨es, rfl⟩
      all_goals simp [Json.isObj] at hp
    subst hpf
    have hmiss : moduleHit mid (Json.obj pf) = false := hpre (Json.obj pf) (by simp)
    simp only [moduleHit] at hmiss
    have hcond : (pyEq (pyGet pf "id") mid && (dget pf "value").isSome && !value.isNull) = false := by
      simp only [Bool.and_eq_false_iff] at hmiss ⊢
      rcases hmiss with h1 | h1
      · exact Or.inl (Or.inl h1)
      · exact Or.inl (Or.inr h1)
    have hrest := ih f hv (fun m hm2 => hpre m (by simp [hm2]))
      (fun m hm2 => hpreobj m (by simp [hm2])) hhit
    simp [updateModules, hcond, hrest]

theorem updateModules_touched_iff (mid value : Json) (ms : List Json)
    (hobj : ∀ m ∈ ms, m.isObj = true) :
    (updateModules mid value ms).2.1 = true ↔
      (value.isNull = false ∧ ∃ m ∈ ms, moduleHit mid m = true) := by
  induction ms with
  | nil => simp [updateModules]
  | cons m rest ih =>
    have hm : m.isObj = true := hobj m (by simp)
    obtain ⟨f, hf⟩ : ∃ f, m = Json.obj f := by
      cases m
      case obj es => exact ⟨es, rfl⟩
      all_goals simp [Json.isObj] at hm
    subst hf
    have hrest := ih (fun m hm2 => hobj m (by simp [hm2]))
    by_cases hc : (pyEq (pyGet f "id") mid && (dget f "value").isSome && !value.isNull) = true
    · have hmyhit : moduleHit mid (Json.obj f) = true := by
        simp only [Bool.and_eq_true, Bool.not_eq_true'] at hc
        simp [moduleHit, hc.1.1, hc.1.2]
      have hvnull : value.isNull = false := by
        simp only [Bool.and_eq_true, Bool.not_eq_true'] at hc
        exact hc.2
      simp only [Bool.and_eq_true, Bool.not_eq_true'] at hc
      simp [updateModules, hc.1.1, hc.1.2, hmyhit, hvnull]
    · rw [Bool.not_eq_true] at hc
      have hstep : (updateModules mid value (Json.obj f :: rest)).2.1 =
          (updateModules mid value rest).2.1 := by
        simp [updateModules, hc]
      rw [hstep, hrest]
      have hhead : value.isNull = false → moduleHit mid (Json.obj f) = false := by
        intro hv
        rcases Bool.and_eq_false_iff.mp hc with h1 | h1
        · simpa [moduleHit] using h1
        · rw [hv] at h1
          simp at h1
      constructor
      · rintro ⟨h1, m2, hm2, h3⟩
        exact ⟨h1, m2, List.mem_cons_of_mem _ hm2, h3⟩
      · rintro ⟨h1, m2, hm2, h3⟩
        rcases List.mem_cons.mp hm2 with heq | hm2
        · subst heq
          rw [hhead h1] at h3
          cases h3
        · exact ⟨h1, m2, hm2, h3⟩

/-- C1: for every stored document whose `surface` field is a map and every
partial update whose `surface` key holds a map, the `wizard:push_state`
merge is exactly one level deep on `surface`: each key present in the
incoming surface map (including `theme`) replaces the stored surface value
for that key wholesale, and every surface key absent from the incoming map
keeps its stored value. -/
theorem surface_merge_one_level_deep
    (doc s u us : List (String × Json))
    (hdoc : dget doc "surface" = some (Json.obj s))
    (hnd : (u.map Prod.fst).Nodup)
    (hnds : (us.map Prod.fst).Nodup)
    (hsup : dget u "surface" = some (Json.obj us)) :
    (mergeLoop u doc).2 = none ∧
    dget (mergeLoop u doc).1 "surface" = some (Json.obj (dupdate s us)) ∧
    (∀ k w, dget us k = some w → dget (dupdate s us) k = some w) ∧
    (∀ k, dget us k = none → dget (dupdate s us) k = dget s k) := by
  have herr : (mergeLoop u doc).2 = none :=
    mergeLoop_ok u doc hnd (fun us2 _ => ⟨s, hdoc⟩)
  refine ⟨herr, mergeLoop_surface u doc s us hnd hdoc hsup herr, ?_, ?_⟩
  · intro k w hk
    rw [dget_dupdate s us hnds k, hk]
  · intro k hk
    rw [dget_dupdate s us hnds k, hk]

/-- C1 witness: the spec's concrete example — merging
`{surface: {theme: {bg:"#111"}}}` into a document whose theme is
`{bg:"#000", fg:"#fff"}` replaces the whole theme, so `fg` is gone. -/
theorem surface_merge_one_level_deep_witness :
    (mergeLoop [("surface", Json.obj [("theme", Json.obj [("bg", Json.str "#111")])])]
       [("v", Json.num 1),
        ("surface", Json.obj [("theme", Json.obj [("bg", Json.str "#000"),
          ("fg", Json.str "#fff")])])]).2 = none ∧
    dget (mergeLoop [("surface", Json.obj [("theme", Json.obj [("bg", Json.str "#111")])])]
       [("v", Json.num 1),
        ("surface", Json.obj [("theme", Json.obj [("bg", Json.str "#000"),
          ("fg", Json.str "#fff")])])]).1 "surface" =
      some (Json.obj (dupdate [("theme", Json.obj [("bg", Json.str "#000"),
        ("fg", Json.str "#fff")])] [("theme", Json.obj [("bg", Json.str "#111")])])) ∧
    dget (dupdate [("theme", Json.obj [("bg", Json.str "#000"), ("fg", Json.str "#fff")])]
        [("theme", Json.obj [("bg", Json.str "#111")])]) "theme" =
      some (Json.obj [("bg", Json.str "#111")]) := by
  have h := surface_merge_one_level_deep
    [("v", Json.num 1),
     ("surface", Json.obj [("theme", Json.obj [("bg", Json.str "#000"),
       ("fg", Json.str "#fff")])])]
    [("theme", Json.obj [("bg", Json.str "#000"), ("fg", Json.str "#fff")])]
    [("surface", Json.obj [("theme", Json.obj [("bg", Json.str "#111")])])]
    [("theme", Json.obj [("bg", Json.str "#111")])]
    (by decide) (by decide) (by decide) (by decide)
  exact ⟨h.1, h.2.1, h.2.2.1 "theme" (Json.obj [("bg", Json.str "#111")]) (by decide)⟩

/-- C2: for every stored document (with a map-shaped `surface`) and every
partial update whose `modules` key holds a sequence, the merge replaces the
modules list atomically and wholesale, while every top-level key not
supplied in the partial update keeps its stored value. -/
theorem modules_replaced_wholesale
    (doc s u : List (String × Json)) (ms : List Json)
    (hdoc : dget doc "surface" = some (Json.obj s))
    (hnd : (u.map Prod.fst).Nodup)
    (hmod : dget u "modules" = some (Json.arr ms)) :
    (mergeLoop u doc).2 = none ∧
    dget (mergeLoop u doc).1 "modules" = some (Json.arr ms) ∧
    (∀ k, k ∉ u.map Prod.fst → dget (mergeLoop u doc).1 k = dget doc k) := by
  have herr : (mergeLoop u doc).2 = none :=
    mergeLoop_ok u doc hnd (fun us2 _ => ⟨s, hdoc⟩)
  exact ⟨herr, mergeLoop_modules u doc ms hnd hmod herr,
    fun k hk => mergeLoop_not_supplied u doc k hk⟩

/-- C2 witness: a 2-module document updated with a single-module list has
exactly that 1 module afterwards, and the unsupplied keys `v` and `surface`
are untouched. -/
theorem modules_replaced_wholesale_witness :
    (mergeLoop [("modules", Json.arr [Json.obj [("id", Json.str "Z1"),
        ("type", Json.str "meter"), ("value", Json.num 1)]])]
      [("v", Json.num 1), ("surface", Json.obj [("tempo", Json.num (mkRat 35 100))]),
       ("modules", Json.arr [Json.obj [("id", Json.str "A1"), ("value", Json.num 0)],
         Json.obj [("id", Json.str "A2"), ("value", Json.num 1)]])]).2 = none ∧
    dget (mergeLoop [("modules", Json.arr [Json.obj [("id", Json.str "Z1"),
        ("type", Json.str "meter"), ("value", Json.num 1)]])]
      [("v", Json.num 1), ("surface", Json.obj [("tempo", Json.num (mkRat 35 100))]),
       ("modules", Json.arr [Json.obj [("id", Json.str "A1"), ("value", Json.num 0)],
         Json.obj [("id", Json.str "A2"), ("value", Json.num 1)]])]).1 "modules" =
      some (Json.arr [Json.obj [("id", Json.str "Z1"),
        ("type", Json.str "meter"), ("value", Json.num 1)]]) ∧
    dget (mergeLoop [("modules", Json.arr [Json.obj [("id", Json.str "Z1"),
        ("type", Json.str "meter"), ("value", Json.num 1)]])]
      [("v", Json.num 1), ("surface", Json.obj [("tempo", Json.num (mkRat 35 100))]),
       ("modules", Json.arr [Json.obj [("id", Json.str "A1"), ("value", Json.num 0)],
         Json.obj [("id", Json.str "A2"), ("value", Json.num 1)]])]).1 "surface" =
      dget [("v", Json.num 1), ("surface", Json.obj [("tempo", Json.num (mkRat 35 100))]),
       ("modules", Json.arr [Json.obj [("id", Json.str "A1"), ("value", Json.num 0)],
         Json.obj [("id", Json.str "A2"), ("value", Json.num 1)]])] "surface" := by
  have h := modules_replaced_wholesale
    [("v", Json.num 1), ("surface", Json.obj [("tempo", Json.num (mkRat 35 100))]),
     ("modules", Json.arr [Json.obj [("id", Json.str "A1"), ("value", Json.num 0)],
       Json.obj [("id", Json.str "A2"), ("value", Json.num 1)]])]
    [("tempo", Json.num (mkRat 35 100))]
    [("modules", Json.arr [Json.obj [("id", Json.str "Z1"),
        ("type", Json.str "meter"), ("value", Json.num 1)]])]
    [Json.obj [("id", Json.str "Z1"), ("type", Json.str "meter"), ("value", Json.num 1)]]
    (by decide) (by decide) (by decide)
  exact ⟨h.1, h.2.1, h.2.2 "surface" (by decide)⟩

/-- C10: for every stored document with a map-shaped `surface`, applying the
partial update with surface tempo 0.5 twice yields exactly the same document
as applying it once, and all surface keys other than `tempo` are unchanged
from the original. -/
theorem tempo_merge_idempotent (doc s : List (String × Json))
    (hdoc : dget doc "surface" = some (Json.obj s)) :
    (mergeLoop [("surface", Json.obj [("tempo", Json.num (mkRat 1 2))])] doc).2 = none ∧
    mergeLoop [("surface", Json.obj [("tempo", Json.num (mkRat 1 2))])]
        (mergeLoop [("surface", Json.obj [("tempo", Json.num (mkRat 1 2))])] doc).1 =
      mergeLoop [("surface", Json.obj [("tempo", Json.num (mkRat 1 2))])] doc ∧
    dget (mergeLoop [("surface", Json.obj [("tempo", Json.num (mkRat 1 2))])] doc).1
        "surface" = some (Json.obj (dset s "tempo" (Json.num (mkRat 1 2)))) ∧
    (∀ k, k ≠ "tempo" →
      dget (dset s "tempo" (Json.num (mkRat 1 2))) k = dget s k) := by
  have hdup : dupdate s [("tempo", Json.num (mkRat 1 2))] =
      dset s "tempo" (Json.num (mkRat 1 2)) := by
    simp [dupdate]
  have h1 : mergeLoop [("surface", Json.obj [("tempo", Json.num (mkRat 1 2))])] doc =
      (dset doc "surface" (Json.obj (dset s "tempo" (Json.num (mkRat 1 2)))), none) := by
    simp only [mergeLoop,
      mergeStep_surface_obj [("tempo", Json.num (mkRat 1 2))] hdoc, hdup]
  have hdoc2 : dget (dset doc "surface"
        (Json.obj (dset s "tempo" (Json.num (mkRat 1 2))))) "surface" =
      some (Json.obj (dset s "tempo" (Json.num (mkRat 1 2)))) := by
    rw [dget_dset, if_pos rfl]
  have hdup2 : dupdate (dset s "tempo" (Json.num (mkRat 1 2)))
        [("tempo", Json.num (mkRat 1 2))] =
      dset s "tempo" (Json.num (mkRat 1 2)) := by
    simp [dupdate, dset_dset]
  have h2 : mergeLoop [("surface", Json.obj [("tempo", Json.num (mkRat 1 2))])]
        (dset doc "surface" (Json.obj (dset s "tempo" (Json.num (mkRat 1 2))))) =
      (dset doc "surface" (Json.obj (dset s "tempo" (Json.num (mkRat 1 2)))), none) := by
    simp only [mergeLoop,
      mergeStep_surface_obj [("tempo", Json.num (mkRat 1 2))] hdoc2, hdup2, dset_dset]
  refine ⟨by rw [h1], ?_, ?_, ?_⟩
  · rw [h1, h2]
  · rw [h1, dget_dset, if_pos rfl]
  · intro k hk
    rw [dget_dset, if_neg (fun h => hk h.symm)]

/-- C10 witness: the idempotence instance on a small concrete document. -/
theorem tempo_merge_idempotent_witness :
    (mergeLoop [("surface", Json.obj [("tempo", Json.num (mkRat 1 2))])]
       [("v", Json.num 1), ("surface", Json.obj [("cols", Json.num 4),
         ("tempo", Json.num (mkRat 35 100))])]).2 = none ∧
    mergeLoop [("surface", Json.obj [("tempo", Json.num (mkRat 1 2))])]
        (mergeLoop [("surface", Json.obj [("tempo", Json.num (mkRat 1 2))])]
          [("v", Json.num 1), ("surface", Json.obj [("cols", Json.num 4),
            ("tempo", Json.num (mkRat 35 100))])]).1 =
      mergeLoop [("surface", Json.obj [("tempo", Json.num (mkRat 1 2))])]
        [("v", Json.num 1), ("surface", Json.obj [("cols", Json.num 4),
          ("tempo", Json.num (mkRat 35 100))])] ∧
    dget (dset [("cols", Json.num 4), ("tempo", Json.num (mkRat 35 100))]
        "tempo" (Json.num (mkRat 1 2))) "cols" =
      dget [("cols", Json.num 4), ("tempo", Json.num (mkRat 35 100))] "cols" := by
  have h := tempo_merge_idempotent
    [("v", Json.num 1), ("surface", Json.obj [("cols", Json.num 4),
      ("tempo", Json.num (mkRat 35 100))])]
    [("cols", Json.num 4), ("tempo", Json.num (mkRat 35 100))]
    (by decide)
  exact ⟨h.1, h.2.1, h.2.2.2 "cols" (by decide)⟩

/-- C8 counterexample: pushing `{modules: 5}` into the initial document does
NOT leave the stored `modules` unchanged — the non-list value is stored
wholesale under `modules` by the final `else` branch of the merge loop. -/
theorem nonlist_modules_stored_cex :
    (mergeLoop [("modules", Json.num 5)] LATEST_STATE).2 = none ∧
    dget (mergeLoop [("modules", Json.num 5)] LATEST_STATE).1 "modules" =
      some (Json.num 5) ∧
    dget LATEST_STATE "modules" ≠ some (Json.num 5) := by
  refine ⟨by decide, by decide, by decide⟩

/-- C8 amended: when a partial update maps `modules` to a non-sequence value
or `surface` to a non-map value, the key is not ignored: the raw value falls
through to the top-level overwrite branch and replaces the stored value of
that key wholesale. -/
theorem nonshape_key_overwrites (doc : List (String × Json)) (v : Json) :
    (v.isArr = false → mergeLoop [("modules", v)] doc = (dset doc "modules" v, none)) ∧
    (v.isObj = false → mergeLoop [("surface", v)] doc = (dset doc "surface" v, none)) := by
  constructor
  · intro hv
    have hstep : mergeStep doc "modules" v = Except.ok (dset doc "modules" v) := by
      unfold mergeStep
      rw [if_neg (by simp [hv]), if_neg (by simp)]
    simp [mergeLoop, hstep]
  · intro hv
    have hstep : mergeStep doc "surface" v = Except.ok (dset doc "surface" v) := by
      unfold mergeStep
      rw [if_neg (by simp), if_neg (by simp [hv])]
    simp [mergeLoop, hstep]

/-- C8 amended witness: the overwrite behaviour at the concrete input of the
counterexample. -/
theorem nonshape_key_overwrites_witness :
    (Json.num 5).isArr = false ∧
    mergeLoop [("modules", Json.num 5)] LATEST_STATE =
      (dset LATEST_STATE "modules" (Json.num 5), none) := by
  exact ⟨by decide, (nonshape_key_overwrites LATEST_STATE (Json.num 5)).1 (by decide)⟩

/-- C6: the message log is a fixed-capacity FIFO of 100 entries — after
appending 101 entries into the empty log exactly 100 remain, namely the 101
entries minus the evicted oldest one, in insertion order (so the 101st is
present); appending below capacity evicts nothing. -/
theorem message_log_ring_buffer (es : List Json) (h : es.length = 101) :
    logAppendAll [] es = es.drop 1 ∧
    (logAppendAll [] es).length = 100 ∧
    (∀ msgs e, msgs.length < 100 → logAppend msgs e = msgs ++ [e]) := by
  have h1 : logAppendAll [] es = ([] ++ es).drop 1 :=
    logAppendAll_overflow_one es [] (by simp) (by simp [h])
  simp only [List.nil_append] at h1
  refine ⟨h1, ?_, ?_⟩
  · rw [h1, List.length_drop, h]
  · intro msgs e hlt
    simp [logAppend, hlt]

/-- C6 witness: 101 numbered entries leave entries 1..100, in order. -/
theorem message_log_ring_buffer_witness :
    ((List.range 101).map (fun n : Nat => Json.num n)).length = 101 ∧
    logAppendAll [] ((List.range 101).map (fun n : Nat => Json.num n)) =
      ((List.range 101).map (fun n : Nat => Json.num n)).drop 1 ∧
    (logAppendAll [] ((List.range 101).map (fun n : Nat => Json.num n))).length = 100 := by
  have hlen : ((List.range 101).map (fun n : Nat => Json.num n)).length = 101 := by
    rw [List.length_map, List.length_range]
  have h := message_log_ring_buffer ((List.range 101).map (fun n : Nat => Json.num n)) hlen
  exact ⟨hlen, h.1, h.2.1⟩

/-- C7 counterexample: connecting with a sessionId already registered does
NOT fail — `on_connect` silently overwrites the live entry (here "Alice"
becomes the default "Player" record); no `InvariantViolation` exists
anywhere in the code, the handler returns normally. -/
theorem on_connect_overwrite_cex :
    (on_connect ⟨[], [("s1", ⟨"Alice", "t0"⟩)], []⟩ "s1" "t1").1.registry =
      [("s1", ⟨"Player", "t1"⟩)] ∧
    (⟨"Player", "t1"⟩ : Session) ≠ (⟨"Alice", "t0"⟩ : Session) := by
  exact ⟨by decide, by decide⟩

/-- C7 amended: `on_connect` always succeeds, storing the default
`{playerName: "Player", connectedAt: now}` under the sessionId (silently
overwriting any existing entry), leaving all other registry entries, the
document and the log untouched, and sending the current state snapshot to
the connecting session only. -/
theorem on_connect_registers_default (st : ServerState) (sid now : String) :
    (on_connect st sid now).1.latest = st.latest ∧
    (on_connect st sid now).1.messages = st.messages ∧
    dget (on_connect st sid now).1.registry sid = some ⟨"Player", now⟩ ∧
    (∀ sid2, sid2 ≠ sid →
      dget (on_connect st sid now).1.registry sid2 = dget st.registry sid2) ∧
    (on_connect st sid now).2 = [⟨"state", Json.obj st.latest, [sid]⟩] := by
  refine ⟨rfl, rfl, ?_, ?_, rfl⟩
  · simp [on_connect, dget_dset]
  · intro sid2 hne
    simp [on_connect, dget_dset, Ne.symm hne]

/-- C3: for every `wizard:push_state` message with a valid map-shaped state
and every set of connected sessions, the handler returns normally, logs the
message, and the `state` event carrying the fully merged document goes to
exactly the sessions other than the sender: the sender is never among the
recipients, and every other connected session is. -/
theorem push_state_excludes_sender
    (sessions : List String) (sender : String) (st : ServerState)
    (es stateEntries s : List (String × Json)) (now : String)
    (hdoc : dget st.latest "surface" = some (Json.obj s))
    (hnd : (stateEntries.map Prod.fst).Nodup)
    (hstate : pyGet es "state" = Json.obj stateEntries) :
    wizard_push_state sessions sender st (Json.obj es) now =
      ({ st with
           latest := ((mergeLoop stateEntries st.latest).1)
           messages := logAppend st.messages (Json.obj
             [("type", Json.str "wizard:push_state"),
              ("state", Json.obj stateEntries), ("timestamp", Json.str now)]) },
       [⟨"json_message", Json.obj
           [("type", Json.str "wizard:push_state"),
            ("state", Json.obj stateEntries), ("timestamp", Json.str now)], sessions⟩,
        ⟨"state", Json.obj (mergeLoop stateEntries st.latest).1,
          sessions.filter (fun x => x ≠ sender)⟩],
       none) ∧
    sender ∉ sessions.filter (fun x => x ≠ sender) ∧
    (∀ sid ∈ sessions, sid ≠ sender →
      sid ∈ sessions.filter (fun x => x ≠ sender)) := by
  have herr : (mergeLoop stateEntries st.latest).2 = none :=
    mergeLoop_ok stateEntries st.latest hnd (fun us2 _ => ⟨s, hdoc⟩)
  have hd : (if (Json.obj es).truthy = true then Json.obj es else Json.obj []) =
      Json.obj es := by
    cases es <;> simp [Json.truthy]
  have hml : mergeLoop stateEntries st.latest =
      ((mergeLoop stateEntries st.latest).1, none) := by
    rw [← herr]
  refine ⟨?_, ?_, ?_⟩
  · unfold wizard_push_state
    rw [hd]
    simp only [hstate, log_json_message]
    rw [hml]
  · simp
  · intro sid hmem hne
    simp [List.mem_filter, hmem, hne]

/-- C3 witness: a wizard pushing `{state: {surface: {tempo: 0.8}}}` with
three connected sessions — the merged state goes to the two players and not
back to the wizard. -/
theorem push_state_excludes_sender_witness :
    wizard_push_state ["wiz", "p1", "p2"] "wiz"
      ⟨[("surface", Json.obj [("tempo", Json.num (mkRat 35 100))])], [], []⟩
      (Json.obj [("state", Json.obj
        [("surface", Json.obj [("tempo", Json.num (mkRat 8 10))])])]) "t0" =
      ({ latest := ((mergeLoop [("surface", Json.obj [("tempo", Json.num (mkRat 8 10))])]
           [("surface", Json.obj [("tempo", Json.num (mkRat 35 100))])]).1)
         registry := []
         messages := logAppend [] (Json.obj
           [("type", Json.str "wizard:push_state"),
            ("state", Json.obj [("surface", Json.obj
              [("tempo", Json.num (mkRat 8 10))])]),
            ("timestamp", Json.str "t0")]) },
       [⟨"json_message", Json.obj
           [("type", Json.str "wizard:push_state"),
            ("state", Json.obj [("surface", Json.obj
              [("tempo", Json.num (mkRat 8 10))])]),
            ("timestamp", Json.str "t0")], ["wiz", "p1", "p2"]⟩,
        ⟨"state", Json.obj (mergeLoop [("surface", Json.obj
            [("tempo", Json.num (mkRat 8 10))])]
            [("surface", Json.obj [("tempo", Json.num (mkRat 35 100))])]).1,
          (["wiz", "p1", "p2"] : List String).filter (fun x => x ≠ "wiz")⟩],
       none) ∧
    "wiz" ∉ (["wiz", "p1", "p2"] : List String).filter (fun x => x ≠ "wiz") ∧
    "p1" ∈ (["wiz", "p1", "p2"] : List String).filter (fun x => x ≠ "wiz") := by
  have h := push_state_excludes_sender ["wiz", "p1", "p2"] "wiz"
    ⟨[("surface", Json.obj [("tempo", Json.num (mkRat 35 100))])], [], []⟩
    [("state", Json.obj [("surface", Json.obj [("tempo", Json.num (mkRat 8 10))])])]
    [("surface", Json.obj [("tempo", Json.num (mkRat 8 10))])]
    [("tempo", Json.num (mkRat 35 100))] "t0"
    (by decide) (by decide) (by decide)
  exact ⟨h.1, h.2.1, h.2.2 "p1" (by decide) (by decide)⟩

/-- C5 counterexample: a truthy non-map payload to `wizard:push_state` is
NOT ignored silently — `(data or {}).get("state")` raises `AttributeError`
(the claim asserts no error is ever raised for non-map payloads). The
canonical state, registry and log are nevertheless unchanged and nothing is
emitted. -/
theorem nonmap_payload_raises_cex :
    wizard_push_state ["w", "p"] "w" ⟨LATEST_STATE, [], []⟩ (Json.str "oops") "t0" =
      (⟨LATEST_STATE, [], []⟩, [], some PyError.attributeError) ∧
    some PyError.attributeError ≠ (none : Option PyError) := by
  exact ⟨by decide, by decide⟩

/-- C5 amended: for every non-map payload, `user:module_event` and
`player:update_name` ignore it silently (state unchanged, no log entry, no
emission, no error); `wizard:push_state` does the same when the payload is
falsy, but raises `AttributeError` (still with no log entry, no state
change and no emission) when the payload is truthy. -/
theorem nonmap_payload_handling (sessions : List String) (sender : String)
    (st : ServerState) (data : Json) (now : String)
    (h : data.isObj = false) :
    user_module_event sessions sender st data now = (st, [], none) ∧
    player_update_name sessions sender st data now = (st, [], none) ∧
    wizard_push_state sessions sender st data now =
      (st, [], if data.truthy then some PyError.attributeError else none) := by
  cases data with
  | obj es => simp [Json.isObj] at h
  | null => exact ⟨rfl, rfl, by simp [wizard_push_state, Json.truthy, pyGet, dget]⟩
  | bool b =>
      refine ⟨rfl, rfl, ?_⟩
      cases b <;> simp [wizard_push_state, Json.truthy, pyGet, dget]
  | num q =>
      refine ⟨rfl, rfl, ?_⟩
      by_cases hq : q = 0 <;> simp [wizard_push_state, Json.truthy, pyGet, dget, hq]
  | str s =>
      refine ⟨rfl, rfl, ?_⟩
      by_cases hs : s = "" <;> simp [wizard_push_state, Json.truthy, pyGet, dget, hs]
  | arr xs =>
      refine ⟨rfl, rfl, ?_⟩
      cases xs <;> simp [wizard_push_state, Json.truthy, pyGet, dget]

/-- C5 amended witness: the behaviour at the truthy non-map payload
`"oops"` of the counterexample. -/
theorem nonmap_payload_handling_witness :
    (Json.str "oops").isObj = false ∧
    user_module_event ["w", "p"] "w" ⟨LATEST_STATE, [], []⟩ (Json.str "oops") "t0" =
      (⟨LATEST_STATE, [], []⟩, [], none) ∧
    player_update_name ["w", "p"] "w" ⟨LATEST_STATE, [], []⟩ (Json.str "oops") "t0" =
      (⟨LATEST_STATE, [], []⟩, [], none) ∧
    wizard_push_state ["w", "p"] "w" ⟨LATEST_STATE, [], []⟩ (Json.str "oops") "t0" =
      (⟨LATEST_STATE, [], []⟩, [],
       if (Json.str "oops").truthy then some PyError.attributeError else none) := by
  have h := nonmap_payload_handling ["w", "p"] "w" ⟨LATEST_STATE, [], []⟩
    (Json.str "oops") "t0" (by decide)
  exact ⟨by decide, h.1, h.2.1, h.2.2⟩

/-- C4: for every stored modules list (of map-shaped modules), id and value,
the `user:module_event` update loop never raises, reports an update exactly
when the value is non-null and some module matches the id while already
having a `value` field, leaves the document completely unchanged otherwise,
and on a hit rewrites only the `value` field of the first matching module
(no new fields, no new modules, later matching modules untouched). -/
theorem module_value_first_match
    (latest : List (String × Json)) (ms : List Json) (mid value : Json)
    (hl : dget latest "modules" = some (Json.arr ms))
    (hobj : ∀ m ∈ ms, m.isObj = true) :
    ((updateModules mid value ms).2.2 = none) ∧
    ((updateModules mid value ms).2.1 = true ↔
        (value.isNull = false ∧ ∃ m ∈ ms, moduleHit mid m = true)) ∧
    ((value.isNull = true ∨ ∀ m ∈ ms, moduleHit mid m = false) →
        updateModules mid value ms = (ms, false, none) ∧
        runModuleLoop latest mid value = (latest, none)) ∧
    (∀ (pre post : List Json) (f : List (String × Json)),
        value.isNull = false →
        ms = pre ++ Json.obj f :: post →
        (∀ m ∈ pre, moduleHit mid m = false) →
        moduleHit mid (Json.obj f) = true →
        updateModules mid value ms =
          (pre ++ Json.obj (dset f "value" value) :: post, true, none) ∧
        runModuleLoop latest mid value =
          (dset latest "modules"
            (Json.arr (pre ++ Json.obj (dset f "value" value) :: post)), none) ∧
        (dset f "value" value).map Prod.fst = f.map Prod.fst) := by
  refine ⟨updateModules_ok mid value ms hobj,
    updateModules_touched_iff mid value ms hobj, ?_, ?_⟩
  · intro hmiss
    have hu : updateModules mid value ms = (ms, false, none) :=
      updateModules_miss mid value ms hobj hmiss
    refine ⟨hu, ?_⟩
    simp only [runModuleLoop, hl, hu]
    rw [dset_self hl]
  · intro pre post f hv hms hpre hhit
    have hpreobj : ∀ m ∈ pre, m.isObj = true := by
      intro m hm
      exact hobj m (by simp [hms, hm])
    have hu : updateModules mid value ms =
        (pre ++ Json.obj (dset f "value" value) :: post, true, none) := by
      rw [hms]
      exact updateModules_hit mid value post pre f hv hpre hpreobj hhit
    refine ⟨hu, ?_, ?_⟩
    · simp only [runModuleLoop, hl, hu]
    · have hsome : (dget f "value").isSome = true := by
        simp only [moduleHit, Bool.and_eq_true] at hhit
        exact hhit.2
      apply keys_dset
      intro hnone
      rw [hnone] at hsome
      simp at hsome

/-- C4 witness: the spec's duplicate-id example — two modules share id
`"A1"` and both have `value` fields; updating `"A1"` to 0.9 rewrites only
the first one, leaves the second untouched, and reports an update. -/
theorem module_value_first_match_witness :
    dget [("modules", Json.arr
        [Json.obj [("id", Json.str "A1"), ("value", Json.num 0)],
         Json.obj [("id", Json.str "A1"), ("value", Json.num 1)]])] "modules" =
      some (Json.arr
        [Json.obj [("id", Json.str "A1"), ("value", Json.num 0)],
         Json.obj [("id", Json.str "A1"), ("value", Json.num 1)]]) ∧
    updateModules (Json.str "A1") (Json.num (mkRat 9 10))
        [Json.obj [("id", Json.str "A1"), ("value", Json.num 0)],
         Json.obj [("id", Json.str "A1"), ("value", Json.num 1)]] =
      ([Json.obj [("id", Json.str "A1"), ("value", Json.num (mkRat 9 10))],
        Json.obj [("id", Json.str "A1"), ("value", Json.num 1)]], true, none) ∧
    runModuleLoop [("modules", Json.arr
        [Json.obj [("id", Json.str "A1"), ("value", Json.num 0)],
         Json.obj [("id", Json.str "A1"), ("value", Json.num 1)]])]
        (Json.str "A1") (Json.num (mkRat 9 10)) =
      ([("modules", Json.arr
        [Json.obj [("id", Json.str "A1"), ("value", Json.num (mkRat 9 10))],
         Json.obj [("id", Json.str "A1"), ("value", Json.num 1)]])], none) := by
  have h := module_value_first_match
    [("modules", Json.arr
        [Json.obj [("id", Json.str "A1"), ("value", Json.num 0)],
         Json.obj [("id", Json.str "A1"), ("value", Json.num 1)]])]
    [Json.obj [("id", Json.str "A1"), ("value", Json.num 0)],
     Json.obj [("id", Json.str "A1"), ("value", Json.num 1)]]
    (Json.str "A1") (Json.num (mkRat 9 10)) (by decide) (by decide)
  have h4 := h.2.2.2 [] [Json.obj [("id", Json.str "A1"), ("value", Json.num 1)]]
    [("id", Json.str "A1"), ("value", Json.num 0)]
    (by decide) (by decide) (by decide) (by decide)
  exact ⟨by decide, by simpa using h4.1, by simpa using h4.2.1⟩

theorem resolveName_spec (j : Json)
    (h : j = Json.null ∨ ∃ s, j = Json.str s) :
    ∃ nm, resolveName j = Except.ok nm ∧
      (j = Json.null → nm = "Player") ∧
      (∀ s, j = Json.str s → pyStrip s = "" → nm = "Player") ∧
      (∀ s, j = Json.str s → pyStrip s ≠ "" → nm = pyStrip s) := by
  rcases h with h | ⟨s, h⟩
  · subst h
    refine ⟨"Player", rfl, fun _ => rfl, ?_, ?_⟩
    · intro s hs
      cases hs
    · intro s hs
      cases hs
  · subst h
    by_cases hs : s = ""
    · subst hs
      refine ⟨"Player", rfl, ?_, ?_, ?_⟩
      · intro h2
        cases h2
      · intro s2 hs2 _
        rfl
      · intro s2 hs2 hne
        injection hs2 with h3
        subst h3
        exact absurd (by decide : pyStrip "" = "") hne
    · by_cases ht : pyStrip s = ""
      · refine ⟨"Player", ?_, ?_, ?_, ?_⟩
        · simp [resolveName, Json.truthy, hs, ht]
        · intro h2
          cases h2
        · intro s2 hs2 _
          rfl
        · intro s2 hs2 hne
          injection hs2 with h3
          subst h3
          exact absurd ht hne
      · refine ⟨pyStrip s, ?_, ?_, ?_, ?_⟩
        · simp [resolveName, Json.truthy, hs, ht]
        · intro h2
          cases h2
        · intro s2 hs2 hempty
          injection hs2 with h3
          subst h3
          exact absurd hempty ht
        · intro s2 hs2 _
          injection hs2 with h3
          subst h3
          rfl

/-- C9: `player:update_name` trims whitespace, resolves an absent, null,
empty or all-whitespace name to `"Player"`, updates the stored name of an
already-registered session (keeping its original timestamp), creates a
fresh entry with the current timestamp for an unregistered session
(self-healing registration), and the resolved name is what the handler
reports in its log entry and broadcast. -/
theorem update_name_self_healing
    (sessions : List String) (sender : String) (st : ServerState)
    (es : List (String × Json)) (now : String)
    (hname : dget es "name" = none ∨ dget es "name" = some Json.null ∨
             ∃ s, dget es "name" = some (Json.str s)) :
    ∃ nm, resolveName (pyGet es "name") = Except.ok nm ∧
      player_update_name sessions sender st (Json.obj es) now =
        ({ st with
             registry :=
               match dget st.registry sender with
               | some sess => dset st.registry sender ⟨nm, sess.connectedAt⟩
               | none => dset st.registry sender ⟨nm, now⟩
             messages := logAppend st.messages (Json.obj
               [("type", Json.str "player:update_name"),
                ("player", Json.str nm), ("timestamp", Json.str now)]) },
         [⟨"json_message", Json.obj
             [("type", Json.str "player:update_name"),
              ("player", Json.str nm), ("timestamp", Json.str now)], sessions⟩],
         none) ∧
      dget (player_update_name sessions sender st (Json.obj es) now).1.registry sender =
        some ⟨nm, match dget st.registry sender with
                  | some sess => sess.connectedAt
                  | none => now⟩ ∧
      (∀ sid2, sid2 ≠ sender →
        dget (player_update_name sessions sender st (Json.obj es) now).1.registry sid2 =
          dget st.registry sid2) ∧
      ((dget es "name" = none ∨ dget es "name" = some Json.null) → nm = "Player") ∧
      (∀ s, dget es "name" = some (Json.str s) → pyStrip s = "" → nm = "Player") ∧
      (∀ s, dget es "name" = some (Json.str s) → pyStrip s ≠ "" → nm = pyStrip s) := by
  have hj : pyGet es "name" = Json.null ∨ ∃ s, pyGet es "name" = Json.str s := by
    rcases hname with h | h | ⟨s, h⟩
    · exact Or.inl (by simp [pyGet, h])
    · exact Or.inl (by simp [pyGet, h])
    · exact Or.inr ⟨s, by simp [pyGet, h]⟩
  obtain ⟨nm, hok, hnull, hempty, hfull⟩ := resolveName_spec (pyGet es "name") hj
  have hhandler : player_update_name sessions sender st (Json.obj es) now =
      ({ st with
           registry :=
             match dget st.registry sender with
             | some sess => dset st.registry sender ⟨nm, sess.connectedAt⟩
             | none => dset st.registry sender ⟨nm, now⟩
           messages := logAppend st.messages (Json.obj
             [("type", Json.str "player:update_name"),
              ("player", Json.str nm), ("timestamp", Json.str now)]) },
       [⟨"json_message", Json.obj
           [("type", Json.str "player:update_name"),
            ("player", Json.str nm), ("timestamp", Json.str now)], sessions⟩],
       none) := by
    cases hreg : dget st.registry sender with
    | none => simp [player_update_name, hok, hreg, log_json_message]
    | some sess => simp [player_update_name, hok, hreg, log_json_message]
  refine ⟨nm, hok, hhandler, ?_, ?_, ?_, ?_, ?_⟩
  · rw [hhandler]
    cases hreg : dget st.registry sender with
    | none => simp [dget_dset]
    | some sess => simp [dget_dset]
  · intro sid2 hne
    rw [hhandler]
    cases hreg : dget st.registry sender with
    | none => simp [dget_dset, Ne.symm hne]
    | some sess => simp [dget_dset, Ne.symm hne]
  · intro hcase
    apply hnull
    rcases hcase with h | h <;> simp [pyGet, h]
  · intro s hdg hstrip
    exact hempty s (by simp [pyGet, hdg]) hstrip
  · intro s hdg hstrip
    exact hfull s (by simp [pyGet, hdg]) hstrip

/-- C9 witness: an unregistered session sending a padded name gets a fresh
registry entry with the trimmed name; an all-whitespace name would resolve
to "Player" (checked via the trimming clause on a concrete string). -/
theorem update_name_self_healing_witness :
    ∃ nm, resolveName (pyGet [("name", Json.str "  Zoe ")] "name") = Except.ok nm ∧
      player_update_name ["a", "b"] "s9" ⟨[], [], []⟩
          (Json.obj [("name", Json.str "  Zoe ")]) "t5" =
        ({ latest := []
           registry :=
             match dget ([] : List (String × Session)) "s9" with
             | some sess => dset ([] : List (String × Session)) "s9" ⟨nm, sess.connectedAt⟩
             | none => dset ([] : List (String × Session)) "s9" ⟨nm, "t5"⟩
           messages := logAppend [] (Json.obj
             [("type", Json.str "player:update_name"),
              ("player", Json.str nm), ("timestamp", Json.str "t5")]) },
         [⟨"json_message", Json.obj
             [("type", Json.str "player:update_name"),
              ("player", Json.str nm), ("timestamp", Json.str "t5")], ["a", "b"]⟩],
         none) ∧
      dget (player_update_name ["a", "b"] "s9" ⟨[], [], []⟩
          (Json.obj [("name", Json.str "  Zoe ")]) "t5").1.registry "s9" =
        some ⟨nm, match dget ([] : List (String × Session)) "s9" with
                  | some sess => sess.connectedAt
                  | none => "t5"⟩ ∧
      nm = pyStrip "  Zoe " := by
  have h := update_name_self_healing ["a", "b"] "s9" ⟨[], [], []⟩
    [("name", Json.str "  Zoe ")] "t5" (Or.inr (Or.inr ⟨"  Zoe ", by decide⟩))
  obtain ⟨nm, hok, hhandler, hsender, hothers, hnull2, hempty2, hfull2⟩ := h
  refine ⟨nm, hok, hhandler, hsender, ?_⟩
  exact hfull2 "  Zoe " (by decide) (by decide)
